import Mathlib

/-!
Shallow embedding of `cryptofeed/exchanges/mixins/deribit_rest.py`.

Timestamps supplied by callers (`start_date`, `end_date`, `now`) are modelled
as integer nanoseconds since the epoch (the resolution of `pd.Timestamp`);
trade timestamps and pagination cursors are integer milliseconds, as on the
wire.  `pandas.Timestamp.timestamp()` is `round(self.value / 1e9, 6)`: the
nanosecond count rounded to microsecond precision (ties to even), so
`int(ts.timestamp() * 1000)` is modelled as that microsecond rounding
followed by truncation of the millisecond value toward zero (float64
representation noise at epoch scale is not modelled).  Python `None` is
modelled by `Option`, and the
truthiness tests `if start_date:`, `if start and end:`, `not start`, `not end`
are modelled by `truthy` below (an integer is falsy exactly when it is 0; an
absent value is falsy).  Side effects (HTTP requests, `sleep`, log warnings,
generator `yield`) are modelled as an explicit event trace, and the scripted
list of HTTP responses plays the role of the server.
-/

namespace DeribitRest

/-- REQUEST_LIMIT = 1000, the fixed page size constant. -/
def REQUEST_LIMIT : Nat := 1000

/-- RATE_LIMIT_SLEEP = 0.2 seconds, the fixed courtesy delay. -/
def RATE_LIMIT_SLEEP : Rat := 1 / 5

/-- The exchange id string (`cryptofeed.defines.DERIBIT`). -/
def DERIBIT : String := "DERIBIT"

/-- Canonical trade side (`cryptofeed.defines.BUY` / `SELL`). -/
inductive Side where
  | buy
  | sell
deriving DecidableEq, Repr

/-- A raw (exchange-native) trade record as found in
`r.json()["result"]["trades"]`: fields `timestamp` (ms), `instrument_name`,
`trade_id`, `direction`, `amount`, `price`. -/
structure RawTrade where
  timestamp : Int
  instrument_name : String
  trade_id : String
  direction : String
  amount : Rat
  price : Rat
deriving DecidableEq, Repr

/-- The canonical trade record produced by `_trade_normalization`. -/
structure Trade where
  timestamp : Rat
  symbol : String
  id : Int
  feed : String
  side : Side
  amount : Rat
  price : Rat
deriving DecidableEq, Repr

/-- Digit run of a decimal literal: `none` when empty or containing a
non-digit character. -/
def digitsToNat : List Char → Option Nat
  | [] => none
  | ds => ds.foldlM (fun acc c =>
      if c.isDigit then some (acc * 10 + (c.toNat - 48)) else none) 0

/-- Python `int(s)` applied to a native trade id: parses an optionally
signed decimal integer, raising (`none`) on a non-numeric string. -/
def pyInt (s : String) : Option Int :=
  match s.data with
  | '-' :: rest => (digitsToNat rest).map fun n => -(n : Int)
  | '+' :: rest => (digitsToNat rest).map fun n => (n : Int)
  | ds => (digitsToNat ds).map fun n => (n : Int)

/-- Model of `_trade_normalization`: builds the canonical dict from a native record.
`tn` is the `timestamp_normalize` collaborator (external to this file's
source; kept abstract as a function argument).  `int(trade["trade_id"])`
raises on a non-numeric id, modelled by `none`. -/
def tradeNormalization (tn : Int → Rat) (trade : RawTrade) : Option Trade :=
  match pyInt trade.trade_id with
  | none => none
  | some n =>
      some { timestamp := tn trade.timestamp
             symbol := trade.instrument_name
             id := n
             feed := DERIBIT
             side := if trade.direction = "buy" then Side.buy else Side.sell
             amount := trade.amount
             price := trade.price }

/-- Python truthiness of an optional integer: `None` and `0` are falsy. -/
def truthy : Option Int → Bool
  | none => false
  | some n => n != 0

/-- The query form issued by `helper` in `_get_trades`: either
`get_last_trades_by_instrument_and_time` with both bounds, or the unbounded
`get_last_trades_by_instrument`. -/
inductive Query where
  | byTime (startTs endTs : Int)
  | recent
deriving DecidableEq, Repr

/-- Model of `helper`: `if start and end:` (Python truthiness) selects the
time-bounded query, otherwise the unbounded most-recent query. -/
def mkQuery (s e : Option Int) : Query :=
  if truthy s && truthy e then Query.byTime (s.getD 0) (e.getD 0)
  else Query.recent

/-- The warnings `_get_trades` and `_book` can log. -/
inductive Warning where
  | server500
  | noData
  | saturated
deriving DecidableEq, Repr

/-- One observable effect of a run: an outbound request, a sleep, a log
warning, a yielded page, or handing a response to `_handle_error`. -/
inductive Event where
  | tradeReq (q : Query)
  | bookReq
  | sleepRetryAfter (n : Nat)
  | sleepRetryWait (n : Nat)
  | sleepRateLimit
  | warn (w : Warning)
  | yieldPage (page : List Trade)
  | handleErr (status : Nat)
deriving DecidableEq, Repr

/-- A scripted HTTP response: status code, the `Retry-After` header value
(read only on 429, already coerced by `int(...)`), and the parsed body. -/
structure Resp (α : Type) where
  status : Nat
  retryAfter : Nat
  body : α
deriving DecidableEq, Repr

/-- Nanoseconds rounded to microseconds, ties to even: pandas
`Timestamp.timestamp()` computes `round(self.value / 1e9, 6)`, and Python
`round` is round-half-to-even, so the returned seconds value carries exactly
the microsecond count `usOfNs t`. -/
def usOfNs (t : Int) : Int :=
  if t % 1000 < 500 then t / 1000
  else if 500 < t % 1000 then t / 1000 + 1
  else if (t / 1000) % 2 = 0 then t / 1000
  else t / 1000 + 1

/-- Python `int(ts.timestamp() * 1000)`: the microsecond-rounded timestamp
times 1000, truncated toward zero by `int()`.  The microsecond rounding of
`Timestamp.timestamp()` happens before the millisecond truncation, so a
1 ns perturbation of the instant is below the conversion resolution. -/
def msOfNs (t : Int) : Int := Int.tdiv (usOfNs t) 1000

/-- The preamble of `_get_trades` (lines 33-43): `if start_date:` resolves a
missing `end_date` to `pd.Timestamp.utcnow()` (`now`), subtracts
`pd.Timedelta(nanoseconds=1)` from the end instant, and converts both bounds
with `int(ts.timestamp() * 1000)` (see `msOfNs`: the conversion rounds to
microseconds first, so the 1 ns subtraction is below its resolution).
Otherwise both bounds stay `None`. -/
def resolveBounds (startDate endDate : Option Int) (now : Int) :
    Option Int × Option Int :=
  match startDate with
  | none => (none, none)
  | some sd =>
      let ed := endDate.getD now
      (some (msOfNs sd), some (msOfNs (ed - 1)))

/-- The cursor-advance block of `_get_trades` (lines 67-77): an empty page
logs the no-data warning and leaves `start` unchanged; otherwise
`data[-1]["timestamp"] == start` (Python `==`, false against `None`) logs the
saturation warning and does `start += 1`, else `start = data[-1]["timestamp"]`.
Returns the warnings logged and the new cursor. -/
def updateCursor (start : Option Int) (data : List RawTrade) :
    List Event × Option Int :=
  match data.getLast? with
  | none => ([Event.warn Warning.noData], start)
  | some lastT =>
      match start with
      | some v =>
          if lastT.timestamp = v then
            ([Event.warn Warning.saturated], some (v + 1))
          else ([], some lastT.timestamp)
      | none => ([], some lastT.timestamp)

/-- Outcome of a `_get_trades` run over a finite response script. -/
inductive TradesOut where
  | finished
  | fatal (status : Nat)
  | normError
  | outOfScript
deriving DecidableEq, Repr

/-- The `while True` loop of `_get_trades` (lines 52-84).  Each iteration
consumes the next scripted response.  `429`: sleep `Retry-After`, `continue`.
`500`: warn, sleep `retry_wait`, `continue` (the `retry` policy argument is
never consulted by this loop; it is passed only to the `request_retry`
decorator, which guards connection-level exceptions, not HTTP statuses).
Other non-200: `_handle_error` fails the call (modelled from the spec: the
error-reporting collaborator raises; its source is outside this file).
200: sleep `RATE_LIMIT_SLEEP`, update the cursor, normalize, yield, and
break iff `len(orig_data) < REQUEST_LIMIT or not start or not end`. -/
def tradesLoop (retryWait : Nat) (tn : Int → Rat)
    (start e : Option Int) :
    List (Resp (List RawTrade)) → List Event × TradesOut
  | [] => ([], TradesOut.outOfScript)
  | r :: rest =>
      let req := Event.tradeReq (mkQuery start e)
      if r.status = 429 then
        let rec' := tradesLoop retryWait tn start e rest
        (req :: Event.sleepRetryAfter r.retryAfter :: rec'.1, rec'.2)
      else if r.status = 500 then
        let rec' := tradesLoop retryWait tn start e rest
        (req :: Event.warn Warning.server500 ::
          Event.sleepRetryWait retryWait :: rec'.1, rec'.2)
      else if r.status ≠ 200 then
        ([req, Event.handleErr r.status], TradesOut.fatal r.status)
      else
        let data := r.body
        let upd := updateCursor start data
        let pre := req :: Event.sleepRateLimit :: upd.1
        match data.mapM (tradeNormalization tn) with
        | none => (pre, TradesOut.normError)
        | some page =>
            let evts := pre ++ [Event.yieldPage page]
            if data.length < REQUEST_LIMIT ∨ ¬ truthy upd.2 ∨ ¬ truthy e then
              (evts, TradesOut.finished)
            else
              let rec' := tradesLoop retryWait tn upd.2 e rest
              (evts ++ rec'.1, rec'.2)

/-- Model of `_get_trades`, whole function: resolve the window bounds, then run the
pagination loop.  The `retry` argument is accepted (as in the source) but the
status loop never reads it. -/
def getTrades (retry : Nat) (retryWait : Nat) (tn : Int → Rat)
    (startDate endDate : Option Int) (now : Int)
    (rs : List (Resp (List RawTrade))) : List Event × TradesOut :=
  let b := resolveBounds startDate endDate now
  let _ := retry
  tradesLoop retryWait tn b.1 b.2 rs

/-- Number of outbound trade requests recorded in a trace. -/
def reqCount (tr : List Event) : Nat :=
  tr.countP fun ev => match ev with | Event.tradeReq _ => true | _ => false

/-- Number of yielded pages recorded in a trace. -/
def pageCount (tr : List Event) : Nat :=
  tr.countP fun ev => match ev with | Event.yieldPage _ => true | _ => false

/-- One side of the book is a `sortedcontainers.SortedDict`, modelled as an
association list kept strictly ascending in the price key. -/
def SideMap : Type := List (Rat × Rat)

/-- SortedDict assignment `map[price] = amount`: insert keeping ascending key
order, replacing the amount when the price is already present. -/
def sdInsert (k v : Rat) : List (Rat × Rat) → List (Rat × Rat)
  | [] => [(k, v)]
  | (k', v') :: t =>
      if k < k' then (k, v) :: (k', v') :: t
      else if k = k' then (k, v) :: t
      else (k', v') :: sdInsert k v t

/-- Lookup in a side map (dict access by price). -/
def sdLookup (k : Rat) : List (Rat × Rat) → Option Rat
  | [] => none
  | (k', v') :: t => if k = k' then some v' else sdLookup k t

/-- The inner population loop of `_book` (lines 129-134): for each
`[price, amount]` entry of one side's list, `ret[symbol][side][price] = amount`. -/
def buildSide (entries : List (Rat × Rat)) : List (Rat × Rat) :=
  entries.foldl (fun m pa => sdInsert pa.1 pa.2 m) []

/-- Parsed body of a `get_order_book` response:
`{"result": {"bids": [[price, amount], ...], "asks": [[price, amount], ...]}}`. -/
structure BookBody where
  bids : List (Rat × Rat)
  asks : List (Rat × Rat)
deriving DecidableEq, Repr

/-- The snapshot `_book` returns: `{symbol: {BID: ..., ASK: ...}}`. -/
structure Snapshot where
  symbol : String
  bids : List (Rat × Rat)
  asks : List (Rat × Rat)
deriving DecidableEq, Repr

/-- How a `_book` call ends: a snapshot, an `UnboundLocalError` (the
`break` on 500 with `retry == 0` leaves the local `data` unassigned, and the
population loop then reads it), a fatal non-200 handed to `_handle_error`,
or the response script running out while still looping. -/
inductive BookResult where
  | ok (snap : Snapshot)
  | unboundLocal
  | fatal (status : Nat)
  | outOfScript
deriving DecidableEq, Repr

/-- How the `while True` loop of `_book` exits: `data` assigned from a 200
response; broke out on 500 with `retry == 0` leaving `data` unassigned;
`_handle_error` raised on another non-200; or the response script ran out. -/
inductive LoopExit where
  | got (d : BookBody)
  | broke
  | err (status : Nat)
  | scriptEnd
deriving DecidableEq, Repr

/-- The `while True` loop of `_book` (lines 111-127): `429`: sleep
`Retry-After`, `continue`; `500`: warn, sleep `retry_wait`, `break` if
`retry == 0` else `continue`; other non-200: `_handle_error` fails the call
(modelled from the spec, as in `tradesLoop`); `200`: `data = r.json()` and
`break`. -/
def bookLoop (retry retryWait : Nat) :
    List (Resp BookBody) → List Event × LoopExit
  | [] => ([], LoopExit.scriptEnd)
  | r :: rest =>
      if r.status = 429 then
        let k := bookLoop retry retryWait rest
        (Event.bookReq :: Event.sleepRetryAfter r.retryAfter :: k.1, k.2)
      else if r.status = 500 then
        let pre := [Event.bookReq, Event.warn Warning.server500,
          Event.sleepRetryWait retryWait]
        if retry = 0 then (pre, LoopExit.broke)
        else
          let k := bookLoop retry retryWait rest
          (pre ++ k.1, k.2)
      else if r.status ≠ 200 then
        ([Event.bookReq, Event.handleErr r.status], LoopExit.err r.status)
      else ([Event.bookReq], LoopExit.got r.body)

/-- Model of `_book`, whole function (line 104 onward): run the request loop, then
populate the bid and ask SortedDicts from `data["result"]`.  When the loop
exits with `data` unassigned (500 with `retry == 0`), the population loop
raises `UnboundLocalError`; a non-200 fatal status was already raised by
`_handle_error`. -/
def book (retry retryWait : Nat) (symbol : String)
    (rs : List (Resp BookBody)) : List Event × BookResult :=
  let l := bookLoop retry retryWait rs
  match l.2 with
  | LoopExit.got d =>
      (l.1, BookResult.ok { symbol := symbol
                            bids := buildSide d.bids
                            asks := buildSide d.asks })
  | LoopExit.broke => (l.1, BookResult.unboundLocal)
  | LoopExit.err s => (l.1, BookResult.fatal s)
  | LoopExit.scriptEnd => (l.1, BookResult.outOfScript)

/-- Last-write-wins semantics of repeated dict assignment: the amount paired
with the last occurrence of a price in the entry list, if any. -/
def lastAmount (p : Rat) : List (Rat × Rat) → Option Rat
  | [] => none
  | pa :: t =>
      match lastAmount p t with
      | some a => some a
      | none => if pa.1 = p then some pa.2 else none

/-- Concrete timestamp normalizer for witness runs (ms as a rational). -/
def tnId : Int → Rat := fun t => (t : Rat)

/-- Concrete native trade id used in witness runs. -/
def sampleId : String := "1"

/-- Concrete instrument name used in witness runs. -/
def sampleInstrument : String := "BTC-PERPETUAL"

/-- A concrete raw trade at a given millisecond timestamp. -/
def sampleTrade (ts : Int) : RawTrade :=
  { timestamp := ts, instrument_name := sampleInstrument, trade_id := sampleId,
    direction := "buy", amount := 1, price := 2 }

/-- The canonical form of `sampleTrade`. -/
def sampleNorm (ts : Int) : Trade :=
  { timestamp := (ts : Rat), symbol := sampleInstrument, id := 1,
    feed := DERIBIT, side := Side.buy, amount := 1, price := 2 }

/-- A scripted 200 trade response. -/
def resp200 (body : List RawTrade) : Resp (List RawTrade) :=
  { status := 200, retryAfter := 0, body := body }

/-- A scripted 200 trade response with an empty page. -/
def respEmpty : Resp (List RawTrade) := resp200 []

/-- A scripted 500 trade response. -/
def trades500 : Resp (List RawTrade) :=
  { status := 500, retryAfter := 0, body := [] }

/-- A scripted 429 trade response with Retry-After 7. -/
def trades429 : Resp (List RawTrade) :=
  { status := 429, retryAfter := 7, body := [] }

/-- A full page (exactly REQUEST_LIMIT trades) whose last timestamp is 0. -/
def fullPageLastZero : List RawTrade :=
  List.replicate 999 (sampleTrade 7) ++ [sampleTrade 0]

/-- A full page (exactly REQUEST_LIMIT trades) all at timestamp 7. -/
def fullPage7 : List RawTrade := List.replicate 1000 (sampleTrade 7)

/-- A scripted 500 order-book response. -/
def bookResp500 : Resp BookBody :=
  { status := 500, retryAfter := 0, body := { bids := [], asks := [] } }

/-- A scripted 429 order-book response with Retry-After 3. -/
def book429 : Resp BookBody :=
  { status := 429, retryAfter := 3, body := { bids := [], asks := [] } }

/-- A concrete order-book body with a repeated bid price. -/
def sampleBook : BookBody :=
  { bids := [(5, 2), (3, 4), (5, 6)], asks := [(7, 1)] }

/-- A scripted 200 order-book response. -/
def bookResp200 : Resp BookBody :=
  { status := 200, retryAfter := 0, body := sampleBook }

/-- C1: for a non-empty raw trade page under a bounded window, a last
timestamp different from the `start` cursor sets the cursor to exactly that
timestamp; a last timestamp equal to `start` (saturated page) logs the
saturation warning and sets the cursor to exactly `start + 1` (one
millisecond); an empty page leaves the cursor unchanged. -/
theorem cursor_advance (s : Int) (data : List RawTrade) (lastT : RawTrade)
    (hlast : data.getLast? = some lastT) :
    (lastT.timestamp ≠ s →
      updateCursor (some s) data = ([], some lastT.timestamp)) ∧
    (lastT.timestamp = s →
      updateCursor (some s) data =
        ([Event.warn Warning.saturated], some (s + 1))) ∧
    (updateCursor (some s) []).2 = some s := by
  refine ⟨fun h => ?_, fun h => ?_, rfl⟩ <;>
    simp [updateCursor, hlast, h]

/-- Witness for `cursor_advance` at concrete inputs. -/
theorem cursor_advance_witness :
    updateCursor (some 5) [sampleTrade 7] = ([], some 7) ∧
    updateCursor (some 7) [sampleTrade 7] =
      ([Event.warn Warning.saturated], some 8) :=
  ⟨(cursor_advance 5 [sampleTrade 7] (sampleTrade 7) rfl).1 (by decide),
   (cursor_advance 7 [sampleTrade 7] (sampleTrade 7) rfl).2.1 (by decide)⟩

/-- C3 (code bug): an order-book fetch with `retry == 0` receiving a single
500 response does not return the empty snapshot — after the `break` the
population loop reads the never-assigned local `data`, so the call raises
`UnboundLocalError`. -/
theorem book_retry0_500_raises :
    book 0 10 sampleInstrument [bookResp500] =
      ([Event.bookReq, Event.warn Warning.server500, Event.sleepRetryWait 10],
        BookResult.unboundLocal) ∧
    (book 0 10 sampleInstrument [bookResp500]).2 ≠
      BookResult.ok { symbol := sampleInstrument, bids := [], asks := [] } := by
  constructor <;> decide

/-- C4 counterexample: with `retry == 0`, a 500 in the trade-pagination loop
is not abandoned: the loop sleeps and issues a second request, which here
succeeds and yields one page. -/
theorem trades_500_retry0_counterexample :
    reqCount (getTrades 0 10 tnId (some 1000000) (some 6000000) 0
      [trades500, resp200 [sampleTrade 3]]).1 = 2 ∧
    pageCount (getTrades 0 10 tnId (some 1000000) (some 6000000) 0
      [trades500, resp200 [sampleTrade 3]]).1 = 1 ∧
    (getTrades 0 10 tnId (some 1000000) (some 6000000) 0
      [trades500, resp200 [sampleTrade 3]]).2 = TradesOut.finished := by
  refine ⟨?_, ?_, ?_⟩ <;> decide

/-- C4 amended: a 500 response in the trade-pagination loop is always
retried after sleeping `retry_wait`, for every retry policy — the loop never
consults `max_retries` and never abandons on 500 (`_get_trades` is
independent of its `retry` argument). -/
theorem trades_500_always_retries (retryWait : Nat) (tn : Int → Rat)
    (s e : Option Int) (r : Resp (List RawTrade))
    (rest : List (Resp (List RawTrade))) (h : r.status = 500) :
    tradesLoop retryWait tn s e (r :: rest) =
      (Event.tradeReq (mkQuery s e) :: Event.warn Warning.server500 ::
        Event.sleepRetryWait retryWait :: (tradesLoop retryWait tn s e rest).1,
        (tradesLoop retryWait tn s e rest).2) ∧
    ∀ retry retry' rw tn' sd ed now rs,
      getTrades retry rw tn' sd ed now rs =
        getTrades retry' rw tn' sd ed now rs := by
  refine ⟨by simp [tradesLoop, h], fun _ _ _ _ _ _ _ _ => rfl⟩

/-- Witness for `trades_500_always_retries` at concrete inputs. -/
theorem trades_500_always_retries_witness :
    tradesLoop 10 tnId (some 1) (some 5) [trades500] =
      ([Event.tradeReq (Query.byTime 1 5), Event.warn Warning.server500,
        Event.sleepRetryWait 10], TradesOut.outOfScript) :=
  (trades_500_always_retries 10 tnId (some 1) (some 5) trades500 []
    (by decide)).1

/-- C6: the trade normalizer is a pure function of the native record: the
canonical side is BUY exactly when the native direction is the literal
string "buy" (any other value gives SELL), the id is the native trade id
coerced to an integer, and amount, price, and instrument name are copied
verbatim. -/
theorem trade_normalization_spec (tn : Int → Rat) (trade : RawTrade)
    (n : Int) (h : pyInt trade.trade_id = some n) :
    ∃ ret, tradeNormalization tn trade = some ret ∧
      (ret.side = Side.buy ↔ trade.direction = "buy") ∧
      (ret.side = Side.sell ↔ trade.direction ≠ "buy") ∧
      ret.id = n ∧
      ret.amount = trade.amount ∧
      ret.price = trade.price ∧
      ret.symbol = trade.instrument_name ∧
      ret.timestamp = tn trade.timestamp ∧
      ret.feed = DERIBIT := by
  refine ⟨{ timestamp := tn trade.timestamp, symbol := trade.instrument_name,
            id := n, feed := DERIBIT,
            side := if trade.direction = "buy" then Side.buy else Side.sell,
            amount := trade.amount, price := trade.price },
    by simp [tradeNormalization, h], ?_, ?_, rfl, rfl, rfl, rfl, rfl, rfl⟩ <;>
    by_cases hd : trade.direction = "buy" <;> simp [hd]

/-- Witness for `trade_normalization_spec` at a concrete record. -/
theorem trade_normalization_spec_witness :
    ∃ ret, tradeNormalization tnId (sampleTrade 3) = some ret ∧
      (ret.side = Side.buy ↔ (sampleTrade 3).direction = "buy") ∧
      (ret.side = Side.sell ↔ (sampleTrade 3).direction ≠ "buy") ∧
      ret.id = 1 ∧
      ret.amount = (sampleTrade 3).amount ∧
      ret.price = (sampleTrade 3).price ∧
      ret.symbol = (sampleTrade 3).instrument_name ∧
      ret.timestamp = tnId (sampleTrade 3).timestamp ∧
      ret.feed = DERIBIT :=
  trade_normalization_spec tnId (sampleTrade 3) 1 (by decide)

/-- At a whole-millisecond instant the microsecond rounding is exact. -/
lemma usOfNs_whole_ms (k : Int) : usOfNs (k * 1000000) = k * 1000 := by
  have h1 : (k * 1000000) % 1000 = 0 := by omega
  have h2 : (k * 1000000) / 1000 = k * 1000 := by omega
  rw [usOfNs, h1, h2]
  norm_num

/-- One nanosecond below a whole-millisecond instant rounds up to the same
microsecond count: the 1 ns reduction is annihilated. -/
lemma usOfNs_whole_ms_pred (k : Int) : usOfNs (k * 1000000 - 1) = k * 1000 := by
  have h1 : (k * 1000000 - 1) % 1000 = 999 := by omega
  have h2 : (k * 1000000 - 1) / 1000 = k * 1000 - 1 := by omega
  rw [usOfNs, h1, h2]
  norm_num

/-- C9 (code bug): the code does resolve an absent end to now and subtracts
exactly one nanosecond before converting both bounds to millisecond
integers, but `Timestamp.timestamp()` rounds to microsecond precision, so
the reduction never survives: at every whole-millisecond end instant the
resolved end bound equals the end instant's own millisecond value, the
boundary millisecond stays inside the inclusive query window, and the
window is not half-open.  At the failing input (start 10^6 ns, end 6*10^6
ns) the window resolves to (1 ms, 6 ms), not the claimed (1 ms, 5 ms). -/
theorem end_reduction_lost :
    resolveBounds (some 1000000) (some 6000000) 0 = (some 1, some 6) ∧
    (resolveBounds (some 1000000) (some 6000000) 0).2 ≠ some 5 ∧
    (∀ sd ed now : Int, resolveBounds (some sd) (some ed) now =
      (some (msOfNs sd), some (msOfNs (ed - 1)))) ∧
    (∀ sd now : Int, resolveBounds (some sd) none now =
      resolveBounds (some sd) (some now) now) ∧
    (∀ k : Int, msOfNs (k * 1000000 - 1) = msOfNs (k * 1000000) ∧
      msOfNs (k * 1000000) = k) := by
  refine ⟨by decide, by decide, fun sd ed now => rfl, fun sd now => rfl,
    fun k => ?_⟩
  rw [msOfNs, msOfNs, usOfNs_whole_ms k, usOfNs_whole_ms_pred k]
  exact ⟨rfl, Int.mul_tdiv_cancel k (by norm_num)⟩

/-- Keys after a SortedDict insert are the inserted key plus the old keys. -/
lemma sdInsert_keys (k v a : Rat) (m : List (Rat × Rat)) :
    a ∈ (sdInsert k v m).map Prod.fst ↔ a = k ∨ a ∈ m.map Prod.fst := by
  induction m with
  | nil => simp [sdInsert]
  | cons hd t ih =>
      obtain ⟨k', v'⟩ := hd
      simp only [sdInsert]
      split_ifs with h1 h2
      · simp
      · subst h2
        simp only [List.map_cons, List.mem_cons]
        tauto
      · simp only [List.map_cons, List.mem_cons, ih]
        tauto

/-- A SortedDict insert keeps the key list strictly ascending. -/
lemma sdInsert_sorted (k v : Rat) (m : List (Rat × Rat))
    (h : List.Sorted (· < ·) (m.map Prod.fst)) :
    List.Sorted (· < ·) ((sdInsert k v m).map Prod.fst) := by
  induction m with
  | nil => simp [sdInsert]
  | cons hd t ih =>
      obtain ⟨k', v'⟩ := hd
      simp only [List.map_cons, List.sorted_cons] at h
      simp only [sdInsert]
      split_ifs with h1 h2
      · simp only [List.map_cons, List.sorted_cons]
        refine ⟨fun b hb => ?_, h⟩
        rcases List.mem_cons.1 hb with hb | hb
        · exact hb ▸ h1
        · exact h1.trans (h.1 b hb)
      · subst h2
        simp only [List.map_cons, List.sorted_cons]
        exact h
      · have h3 : k' < k := by
          rcases lt_trichotomy k k' with hlt | hlt | hlt
          · exact absurd hlt h1
          · exact absurd hlt h2
          · exact hlt
        simp only [List.map_cons, List.sorted_cons]
        refine ⟨fun b hb => ?_, ih h.2⟩
        rcases (sdInsert_keys k v b t).1 hb with hb | hb
        · exact hb ▸ h3
        · exact h.1 b hb

/-- Lookup after a SortedDict insert: the new value at the inserted key,
the old map elsewhere. -/
lemma sdLookup_insert (p k v : Rat) (m : List (Rat × Rat)) :
    sdLookup p (sdInsert k v m) = if p = k then some v else sdLookup p m := by
  induction m with
  | nil => by_cases hp : p = k <;> simp [sdInsert, sdLookup, hp]
  | cons hd t ih =>
      obtain ⟨k', v'⟩ := hd
      by_cases h1 : k < k'
      · rw [show sdInsert k v ((k', v') :: t) = (k, v) :: (k', v') :: t from
          by simp [sdInsert, h1]]
        by_cases hp : p = k <;> simp [sdLookup, hp]
      · by_cases h2 : k = k'
        · rw [show sdInsert k v ((k', v') :: t) = (k, v) :: t from
            by simp [sdInsert, h1, h2]]
          subst h2
          by_cases hp : p = k <;> simp [sdLookup, hp]
        · rw [show sdInsert k v ((k', v') :: t) = (k', v') :: sdInsert k v t
            from by simp [sdInsert, h1, h2]]
          by_cases hp : p = k'
          · have hpk : ¬ p = k := fun hc => h2 (hc.symm.trans hp)
            have hk : ¬ k' = k := fun hc => h2 hc.symm
            simp [sdLookup, hp, hpk, hk]
          · simp only [sdLookup, if_neg hp]
            exact ih

/-- Folding SortedDict inserts over an entry list: a key is present iff it
occurs among the accumulated or inserted prices. -/
lemma foldl_sdInsert_mem (l : List (Rat × Rat)) (m : List (Rat × Rat))
    (a : Rat) :
    a ∈ ((l.foldl (fun m pa => sdInsert pa.1 pa.2 m) m).map Prod.fst) ↔
      a ∈ m.map Prod.fst ∨ a ∈ l.map Prod.fst := by
  induction l generalizing m with
  | nil => simp
  | cons pa t ih =>
      simp only [List.foldl_cons, ih, sdInsert_keys, List.map_cons,
        List.mem_cons]
      tauto

/-- Folding SortedDict inserts preserves ascending key order. -/
lemma foldl_sdInsert_sorted (l : List (Rat × Rat)) (m : List (Rat × Rat))
    (h : List.Sorted (· < ·) (m.map Prod.fst)) :
    List.Sorted (· < ·)
      ((l.foldl (fun m pa => sdInsert pa.1 pa.2 m) m).map Prod.fst) := by
  induction l generalizing m with
  | nil => simpa
  | cons pa t ih => exact ih _ (sdInsert_sorted _ _ _ h)

/-- Folding SortedDict inserts realizes last-write-wins lookup. -/
lemma foldl_sdInsert_lookup (l : List (Rat × Rat)) (m : List (Rat × Rat))
    (p : Rat) :
    sdLookup p (l.foldl (fun m pa => sdInsert pa.1 pa.2 m) m) =
      match lastAmount p l with
      | some a => some a
      | none => sdLookup p m := by
  induction l generalizing m with
  | nil => simp [lastAmount]
  | cons pa t ih =>
      rw [List.foldl_cons, ih]
      cases hl : lastAmount p t with
      | some a => simp [lastAmount, hl]
      | none =>
          simp only [lastAmount, hl, sdLookup_insert]
          by_cases hp : pa.1 = p
          · simp [hp]
          · have hp' : ¬ p = pa.1 := fun hc => hp hc.symm
            simp [hp, hp']

/-- C7: a successful order-book response produces the snapshot whose bid and
ask maps are built by repeated `map[price] = amount` insertion; for any
entry list, the resulting map's keys are exactly the distinct prices of the
list, each key looks up the amount paired with its last occurrence
(last-write-wins), and the keys are strictly ascending. -/
theorem book_snapshot_maps (retry rw : Nat) (symbol : String) (d : BookBody) :
    (book retry rw symbol [{ status := 200, retryAfter := 0, body := d }]).2 =
      BookResult.ok { symbol := symbol, bids := buildSide d.bids,
                      asks := buildSide d.asks } ∧
    ∀ entries : List (Rat × Rat),
      List.Sorted (· < ·) ((buildSide entries).map Prod.fst) ∧
      (∀ p : Rat,
        p ∈ (buildSide entries).map Prod.fst ↔ p ∈ entries.map Prod.fst) ∧
      (∀ p : Rat, sdLookup p (buildSide entries) = lastAmount p entries) := by
  refine ⟨by simp [book, bookLoop], fun entries => ⟨?_, ?_, ?_⟩⟩
  · exact foldl_sdInsert_sorted entries [] (by simp)
  · intro p
    simpa using foldl_sdInsert_mem entries [] p
  · intro p
    rw [buildSide, foldl_sdInsert_lookup]
    cases lastAmount p entries <;> simp [sdLookup]

/-- The cursor-advance block emits at most one warning and nothing else. -/
lemma updateCursor_events (s : Option Int) (d : List RawTrade) :
    (updateCursor s d).1 = [] ∨ ∃ w, (updateCursor s d).1 = [Event.warn w] := by
  unfold updateCursor
  cases d.getLast? with
  | none => exact Or.inr ⟨_, rfl⟩
  | some lastT =>
      cases s with
      | none => exact Or.inl rfl
      | some v =>
          by_cases h : lastT.timestamp = v
          · simp [h]
          · simp [h]

/-- The cursor-advance block emits no requests and no pages. -/
lemma updateCursor_counts (s : Option Int) (d : List RawTrade) :
    reqCount (updateCursor s d).1 = 0 ∧
    pageCount (updateCursor s d).1 = 0 := by
  rcases updateCursor_events s d with h | ⟨w, h⟩ <;>
    simp [h, reqCount, pageCount]

/-- Every iteration of the trade loop starts by issuing the query built from
the current cursor state. -/
lemma tradesLoop_cons_eq (rw : Nat) (tn : Int → Rat) (s e : Option Int)
    (r : Resp (List RawTrade)) (rest : List (Resp (List RawTrade))) :
    (tradesLoop rw tn s e (r :: rest)).1 =
      Event.tradeReq (mkQuery s e) ::
        ((tradesLoop rw tn s e (r :: rest)).1).tail := by
  by_cases h1 : r.status = 429
  · simp [tradesLoop, h1]
  · by_cases h2 : r.status = 500
    · simp [tradesLoop, h1, h2]
    · by_cases h3 : r.status = 200
      · have hne : ¬ r.status ≠ 200 := by simp [h3]
        simp only [tradesLoop, if_neg h1, if_neg h2, if_neg hne]
        cases hm : r.body.mapM (tradeNormalization tn) with
        | none => rfl
        | some page =>
            by_cases hc : r.body.length < REQUEST_LIMIT ∨
                truthy (updateCursor s r.body).2 = false ∨
                truthy e = false <;>
              simp [hc]
      · simp [tradesLoop, h1, h2, h3]

/-- A trade loop run over a non-empty script issues at least one request. -/
lemma one_le_reqCount (rw : Nat) (tn : Int → Rat) (s e : Option Int)
    (r : Resp (List RawTrade)) (rest : List (Resp (List RawTrade))) :
    1 ≤ reqCount (tradesLoop rw tn s e (r :: rest)).1 := by
  rw [reqCount, tradesLoop_cons_eq rw tn s e r rest, List.countP_cons]
  simp

/-- Unfolding of one 200-iteration of the trade loop when every raw trade
normalizes. -/
lemma tradesLoop_200 (rw : Nat) (tn : Int → Rat) (s e : Option Int)
    (r : Resp (List RawTrade)) (rest : List (Resp (List RawTrade)))
    (page : List Trade) (h200 : r.status = 200)
    (hm : r.body.mapM (tradeNormalization tn) = some page) :
    tradesLoop rw tn s e (r :: rest) =
      if r.body.length < REQUEST_LIMIT ∨ ¬ truthy (updateCursor s r.body).2 ∨
          ¬ truthy e then
        (Event.tradeReq (mkQuery s e) :: Event.sleepRateLimit ::
          ((updateCursor s r.body).1 ++ [Event.yieldPage page]),
          TradesOut.finished)
      else
        (Event.tradeReq (mkQuery s e) :: Event.sleepRateLimit ::
          ((updateCursor s r.body).1 ++ [Event.yieldPage page] ++
            (tradesLoop rw tn (updateCursor s r.body).2 e rest).1),
          (tradesLoop rw tn (updateCursor s r.body).2 e rest).2) := by
  have h429 : ¬ r.status = 429 := by rw [h200]; decide
  have h500 : ¬ r.status = 500 := by rw [h200]; decide
  have hne : ¬ r.status ≠ 200 := by simp [h200]
  simp only [tradesLoop, if_neg h429, if_neg h500, if_neg hne, hm]
  split_ifs with hc <;> simp

/-- C5: a 429 response is retried unconditionally in both loops — the next
iteration runs with unchanged state after sleeping exactly the Retry-After
value, no retry budget is consulted, and a script of nothing but 429s never
produces an error outcome (the loop only ends by running out of scripted
responses). -/
theorem retry_429_unconditional (rw : Nat) (tn : Int → Rat) (s e : Option Int)
    (r : Resp (List RawTrade)) (rest : List (Resp (List RawTrade)))
    (retry rw' : Nat) (rb : Resp BookBody) (restb : List (Resp BookBody))
    (h : r.status = 429) (hb : rb.status = 429) :
    tradesLoop rw tn s e (r :: rest) =
      (Event.tradeReq (mkQuery s e) :: Event.sleepRetryAfter r.retryAfter ::
        (tradesLoop rw tn s e rest).1, (tradesLoop rw tn s e rest).2) ∧
    bookLoop retry rw' (rb :: restb) =
      (Event.bookReq :: Event.sleepRetryAfter rb.retryAfter ::
        (bookLoop retry rw' restb).1, (bookLoop retry rw' restb).2) ∧
    (∀ rs : List (Resp (List RawTrade)), (∀ x ∈ rs, x.status = 429) →
      (tradesLoop rw tn s e rs).2 = TradesOut.outOfScript) ∧
    (∀ rsb : List (Resp BookBody), (∀ x ∈ rsb, x.status = 429) →
      (bookLoop retry rw' rsb).2 = LoopExit.scriptEnd) := by
  refine ⟨by simp [tradesLoop, h], by simp [bookLoop, hb], ?_, ?_⟩
  · intro rs hall
    induction rs with
    | nil => rfl
    | cons a as ih =>
        have ha : a.status = 429 := hall a (List.mem_cons_self a as)
        have ih' := ih fun x hx => hall x (List.mem_cons_of_mem a hx)
        simp [tradesLoop, ha, ih']
  · intro rsb hall
    induction rsb with
    | nil => rfl
    | cons a as ih =>
        have ha : a.status = 429 := hall a (List.mem_cons_self a as)
        have ih' := ih fun x hx => hall x (List.mem_cons_of_mem a hx)
        simp [bookLoop, ha, ih']

/-- Witness for `retry_429_unconditional` at concrete responses. -/
theorem retry_429_unconditional_witness :
    tradesLoop 10 tnId (some 1) (some 5) [trades429] =
      ([Event.tradeReq (Query.byTime 1 5), Event.sleepRetryAfter 7],
        TradesOut.outOfScript) ∧
    bookLoop 0 10 [book429] =
      ([Event.bookReq, Event.sleepRetryAfter 3], LoopExit.scriptEnd) := by
  have h := retry_429_unconditional 10 tnId (some 1) (some 5) trades429 []
    0 10 book429 [] (by decide) (by decide)
  refine ⟨?_, ?_⟩
  · rw [h.1]; rfl
  · rw [h.2.1]; rfl

/-- The order-book call's trace is exactly its request loop's trace. -/
lemma book_trace (retry rw : Nat) (symbol : String)
    (rs : List (Resp BookBody)) :
    (book retry rw symbol rs).1 = (bookLoop retry rw rs).1 := by
  rcases h : (bookLoop retry rw rs).2 with d | _ | st | _ <;> simp [book, h]

/-- The order-book request loop never sleeps the rate-limit courtesy delay. -/
lemma bookLoop_no_rate_limit (retry rw : Nat) (rs : List (Resp BookBody)) :
    Event.sleepRateLimit ∉ (bookLoop retry rw rs).1 := by
  induction rs with
  | nil => simp [bookLoop]
  | cons a as ih =>
      by_cases h1 : a.status = 429
      · simp [bookLoop, h1, ih]
      · by_cases h2 : a.status = 500
        · by_cases h3 : retry = 0 <;> simp [bookLoop, h1, h2, h3, ih]
        · by_cases h4 : a.status = 200
          · have hne : ¬ a.status ≠ 200 := by simp [h4]
            simp [bookLoop, h1, h2, hne]
          · simp [bookLoop, h1, h2, h4]

/-- C8 counterexample: a successful order-book fetch uses the parsed body
(it returns the populated snapshot) yet its trace contains no rate-limit
courtesy sleep at all. -/
theorem book_rate_limit_counterexample :
    (book 0 10 sampleInstrument [bookResp200]).2 =
      BookResult.ok { symbol := sampleInstrument,
                      bids := buildSide sampleBook.bids,
                      asks := buildSide sampleBook.asks } ∧
    Event.sleepRateLimit ∉ (book 0 10 sampleInstrument [bookResp200]).1 := by
  constructor <;> decide

/-- C8 amended: in the trade-pagination loop every 200 response is followed
by the rate-limit courtesy sleep immediately after the request, before the
body is processed; the order-book fetch, by contrast, never sleeps the
courtesy delay. -/
theorem rate_limit_sleep_amended (rw : Nat) (tn : Int → Rat)
    (s e : Option Int) (r : Resp (List RawTrade))
    (rest : List (Resp (List RawTrade))) (h200 : r.status = 200) :
    (∃ t, (tradesLoop rw tn s e (r :: rest)).1 =
      Event.tradeReq (mkQuery s e) :: Event.sleepRateLimit :: t) ∧
    (∀ retry rw' : Nat, ∀ rsb : List (Resp BookBody),
      Event.sleepRateLimit ∉ (bookLoop retry rw' rsb).1) ∧
    (∀ retry rw' : Nat, ∀ sym : String, ∀ rsb : List (Resp BookBody),
      Event.sleepRateLimit ∉ (book retry rw' sym rsb).1) := by
  refine ⟨?_, fun retry rw' rsb => bookLoop_no_rate_limit retry rw' rsb,
    fun retry rw' sym rsb => ?_⟩
  · have h429 : ¬ r.status = 429 := by rw [h200]; decide
    have h500 : ¬ r.status = 500 := by rw [h200]; decide
    have hne : ¬ r.status ≠ 200 := by simp [h200]
    cases hm : r.body.mapM (tradeNormalization tn) with
    | none =>
        exact ⟨(updateCursor s r.body).1, by simp only [tradesLoop,
          if_neg h429, if_neg h500, if_neg hne, hm]⟩
    | some page =>
        rw [tradesLoop_200 rw tn s e r rest page h200 hm]
        by_cases hc : r.body.length < REQUEST_LIMIT ∨
            ¬ truthy (updateCursor s r.body).2 ∨ ¬ truthy e
        · exact ⟨_, by rw [if_pos hc]⟩
        · exact ⟨_, by rw [if_neg hc]⟩
  · rw [book_trace]
    exact bookLoop_no_rate_limit retry rw' rsb

/-- Witness for `rate_limit_sleep_amended` at a concrete 200 response. -/
theorem rate_limit_sleep_amended_witness :
    (tradesLoop 10 tnId (some 1) (some 5)
      [resp200 [sampleTrade 3]]).1.take 2 =
        [Event.tradeReq (Query.byTime 1 5), Event.sleepRateLimit] ∧
    Event.sleepRateLimit ∉ (book 0 10 sampleInstrument [bookResp200]).1 := by
  have h := rate_limit_sleep_amended 10 tnId (some 1) (some 5)
    (resp200 [sampleTrade 3]) [] (by decide)
  obtain ⟨t, ht⟩ := h.1
  exact ⟨by rw [ht]; rfl, h.2.2 0 10 sampleInstrument [bookResp200]⟩

set_option maxRecDepth 2000000 in
/-- C2 counterexample: a run with both bounds present whose full page (raw
size exactly REQUEST_LIMIT) drives the cursor to 0: the loop stops after one
request (the second scripted response is never requested) even though the
raw page size is not below the limit and neither bound is absent. -/
theorem termination_claim_counterexample :
    (tradesLoop 10 tnId (some 5) (some 9)
      [resp200 fullPageLastZero, respEmpty]).2 = TradesOut.finished ∧
    reqCount (tradesLoop 10 tnId (some 5) (some 9)
      [resp200 fullPageLastZero, respEmpty]).1 = 1 ∧
    fullPageLastZero.length = REQUEST_LIMIT ∧
    (updateCursor (some 5) fullPageLastZero).2 = some 0 ∧
    (some 9 : Option Int) ≠ none ∧
    (updateCursor (some 5) fullPageLastZero).2 ≠ none := by
  refine ⟨?_, ?_, ?_, ?_, ?_, ?_⟩ <;> decide

/-- C2 amended: after a 200 page the loop stops (yields the page and issues
no further request) iff the raw page size is below REQUEST_LIMIT, or the
updated `start` cursor is falsy (absent or 0), or `end` is falsy (absent or
0) — Python truthiness, not an absence check; in particular with `end`
absent the run finishes with exactly one page. -/
theorem termination_truthiness (rw : Nat) (tn : Int → Rat) (s e : Option Int)
    (r : Resp (List RawTrade)) (rest : List (Resp (List RawTrade)))
    (page : List Trade) (h200 : r.status = 200)
    (hm : r.body.mapM (tradeNormalization tn) = some page)
    (hrest : rest ≠ []) :
    (reqCount (tradesLoop rw tn s e (r :: rest)).1 = 1 ↔
      (r.body.length < REQUEST_LIMIT ∨
        truthy (updateCursor s r.body).2 = false ∨ truthy e = false)) ∧
    (tradesLoop rw tn s none (r :: rest)).2 = TradesOut.finished ∧
    pageCount (tradesLoop rw tn s none (r :: rest)).1 = 1 := by
  obtain ⟨r2, rest2, rfl⟩ : ∃ r2 rest2, rest = r2 :: rest2 := by
    cases rest with
    | nil => exact absurd rfl hrest
    | cons a b => exact ⟨a, b, rfl⟩
  have hu := updateCursor_counts s r.body
  have hnone : truthy (none : Option Int) = false := rfl
  refine ⟨?_, ?_, ?_⟩
  · rw [tradesLoop_200 rw tn s e r (r2 :: rest2) page h200 hm]
    by_cases hc : r.body.length < REQUEST_LIMIT ∨
        truthy (updateCursor s r.body).2 = false ∨ truthy e = false
    · rw [if_pos (by simpa using hc)]
      simp only [hc, iff_true]
      simp only [reqCount] at hu ⊢
      simp [List.countP_cons, List.countP_append, hu.1]
    · rw [if_neg (by simpa using hc)]
      simp only [hc, iff_false]
      have hone := one_le_reqCount rw tn (updateCursor s r.body).2 e r2 rest2
      have htr : reqCount (Event.tradeReq (mkQuery s e) ::
          Event.sleepRateLimit :: ((updateCursor s r.body).1 ++
            [Event.yieldPage page] ++
            (tradesLoop rw tn (updateCursor s r.body).2 e
              (r2 :: rest2)).1)) =
          1 + reqCount (tradesLoop rw tn (updateCursor s r.body).2 e
            (r2 :: rest2)).1 := by
        simp only [reqCount] at hu ⊢
        simp [List.countP_cons, List.countP_append, hu.1]
        omega
      rw [htr]
      omega
  · rw [tradesLoop_200 rw tn s none r (r2 :: rest2) page h200 hm,
      if_pos (Or.inr (Or.inr (by simp [truthy])))]
  · rw [tradesLoop_200 rw tn s none r (r2 :: rest2) page h200 hm,
      if_pos (Or.inr (Or.inr (by simp [truthy])))]
    simp only [pageCount] at hu ⊢
    simp [List.countP_cons, List.countP_append, hu.2]

/-- Witness for `termination_truthiness` at a concrete short page. -/
theorem termination_truthiness_witness :
    (reqCount (tradesLoop 10 tnId (some 1) (some 5)
        [resp200 [sampleTrade 3], respEmpty]).1 = 1 ↔
      ((resp200 [sampleTrade 3]).body.length < REQUEST_LIMIT ∨
        truthy (updateCursor (some 1) (resp200 [sampleTrade 3]).body).2 =
          false ∨
        truthy (some 5) = false)) ∧
    (tradesLoop 10 tnId (some 1) none
      [resp200 [sampleTrade 3], respEmpty]).2 = TradesOut.finished ∧
    pageCount (tradesLoop 10 tnId (some 1) none
      [resp200 [sampleTrade 3], respEmpty]).1 = 1 :=
  termination_truthiness 10 tnId (some 1) (some 5) (resp200 [sampleTrade 3])
    [respEmpty] [sampleNorm 3] (by decide) (by decide) (by decide)

set_option maxRecDepth 2000000 in
/-- C10 counterexample: with a caller-supplied window whose resolved start
cursor is 0, the first query is indeed issued in the unbounded form, but the
run does not stop after one page: a full first page with nonzero last
timestamp makes the loop continue and issue a second, time-bounded query,
yielding two pages in total. -/
theorem truthiness_claim_counterexample :
    (resolveBounds (some 0) (some 6000000) 0).1 = some 0 ∧
    (getTrades 0 10 tnId (some 0) (some 6000000) 0
      [resp200 fullPage7, respEmpty]).1.head? =
        some (Event.tradeReq Query.recent) ∧
    pageCount (getTrades 0 10 tnId (some 0) (some 6000000) 0
      [resp200 fullPage7, respEmpty]).1 = 2 ∧
    Event.tradeReq (Query.byTime 7 6) ∈
      (getTrades 0 10 tnId (some 0) (some 6000000) 0
        [resp200 fullPage7, respEmpty]).1 := by
  refine ⟨?_, ?_, ?_, ?_⟩ <;> decide

/-- C10 amended: when the resolved start cursor equals 0 the query is issued
in the unbounded most-recent form (truthiness, not an absence check), but
the run does not necessarily terminate after one page: if the raw page is
not below REQUEST_LIMIT and the updated cursor and the end bound are both
truthy, the loop continues and its next request is time-bounded. -/
theorem truthiness_zero_start (rw : Nat) (tn : Int → Rat) (e : Option Int)
    (r : Resp (List RawTrade)) (r2 : Resp (List RawTrade))
    (rest2 : List (Resp (List RawTrade))) (page : List Trade)
    (h200 : r.status = 200)
    (hm : r.body.mapM (tradeNormalization tn) = some page)
    (hfull : ¬ r.body.length < REQUEST_LIMIT)
    (hcur : truthy (updateCursor (some 0) r.body).2 = true)
    (he : truthy e = true) :
    mkQuery (some 0) e = Query.recent ∧
    (tradesLoop rw tn (some 0) e (r :: r2 :: rest2)).2 =
      (tradesLoop rw tn (updateCursor (some 0) r.body).2 e
        (r2 :: rest2)).2 ∧
    (∃ a b t0 t1, (tradesLoop rw tn (some 0) e (r :: r2 :: rest2)).1 =
      Event.tradeReq Query.recent :: Event.sleepRateLimit ::
        (t0 ++ Event.tradeReq (Query.byTime a b) :: t1)) := by
  have hq : mkQuery (some 0) e = Query.recent := by
    simp [mkQuery, truthy]
  have hc : ¬ (r.body.length < REQUEST_LIMIT ∨
      ¬ truthy (updateCursor (some 0) r.body).2 ∨ ¬ truthy e) := by
    simp [hfull, hcur, he]
  refine ⟨hq, ?_, ?_⟩
  · rw [tradesLoop_200 rw tn (some 0) e r (r2 :: rest2) page h200 hm,
      if_neg hc]
  · rw [tradesLoop_200 rw tn (some 0) e r (r2 :: rest2) page h200 hm,
      if_neg hc]
    obtain ⟨sv, hsv⟩ : ∃ sv, (updateCursor (some 0) r.body).2 = some sv := by
      cases hx : (updateCursor (some 0) r.body).2 with
      | none => rw [hx] at hcur; exact absurd hcur (by simp [truthy])
      | some v => exact ⟨v, rfl⟩
    obtain ⟨ev, hev⟩ : ∃ ev, e = some ev := by
      cases hx : e with
      | none => rw [hx] at he; exact absurd he (by simp [truthy])
      | some v => exact ⟨v, rfl⟩
    refine ⟨sv, ev, (updateCursor (some 0) r.body).1 ++ [Event.yieldPage page],
      ((tradesLoop rw tn (updateCursor (some 0) r.body).2 e
        (r2 :: rest2)).1).tail, ?_⟩
    have hhead := tradesLoop_cons_eq rw tn (updateCursor (some 0) r.body).2 e
      r2 rest2
    have hq2 : mkQuery (updateCursor (some 0) r.body).2 e =
        Query.byTime sv ev := by
      rw [hsv] at hcur ⊢
      rw [hev] at he ⊢
      simp [mkQuery, truthy] at hcur he ⊢
      simp [hcur, he]
    rw [hq, hhead, hq2]
    simp

set_option maxRecDepth 2000000 in
/-- Witness for `truthiness_zero_start` at a concrete full page. -/
theorem truthiness_zero_start_witness :
    mkQuery (some 0) (some 5) = Query.recent ∧
    (tradesLoop 10 tnId (some 0) (some 5)
      [resp200 fullPage7, respEmpty]).2 =
      (tradesLoop 10 tnId (updateCursor (some 0) fullPage7).2 (some 5)
        [respEmpty]).2 := by
  have h := truthiness_zero_start 10 tnId (some 5) (resp200 fullPage7)
    respEmpty [] (List.replicate 1000 (sampleNorm 7)) (by decide) (by decide)
    (by decide) (by decide) (by decide)
  exact ⟨h.1, h.2.1⟩

end DeribitRest
